import Mathlib

/-!
Shallow embedding of `src/streamlit_app.py` (a Streamlit app driving Google
Cloud Vision async OCR over objects in a Google Cloud Storage bucket), and
proofs about the merge step (`write_to_text`), the cleanup step
(`delete_temporary_files`), and the button-gated pipeline in `main`.

Modelling choices:
* A stored object (GCS blob) is a `Blob`: bucket name, object name, content.
* Content is abstracted to what `write_to_text` inspects: either bytes that
  `json.loads` parses into a response object with a `responses` list of
  per-page entries, or bytes that fail to parse (raising
  `json.decoder.JSONDecodeError`).  A per-page entry either carries a
  `fullTextAnnotation` with its `text` field, or lacks that key.
* `bucket.list_blobs(prefix=...)` returns the blobs of that bucket whose
  names start with the given string, in store order; the backend does not
  guarantee any particular order, so the store's own order stands in for the
  listing order.
* Python exceptions are values of `PyError`; a function that can raise
  returns the state it had produced at the moment of the raise together with
  the error.
* The Streamlit session is a record of the three `st.session_state` flags;
  one run of the script with one clicked button is one step of `runMain`.
-/

namespace GoogleOcr

/-- One entry of the `responses` list of a parsed output shard: either it has
a `fullTextAnnotation` whose `text` field is the page's text, or that key is
absent (page with no detected text). -/
inductive PageResponse where
  | withText (text : String)
  | noText
deriving DecidableEq

/-- The bytes of a stored object, as far as `write_to_text` can distinguish
them: either `json.loads` succeeds and yields a `responses` list of per-page
entries, or it raises (`notJson` also covers arbitrary non-shard bytes such
as an uploaded PDF). -/
inductive BlobContent where
  | json (responses : List PageResponse)
  | notJson (bytes : String)
deriving DecidableEq

/-- A stored object: bucket, object name (key), content. -/
structure Blob where
  bucket : String
  name : String
  content : BlobContent
deriving DecidableEq

/-- The object store: all blobs across buckets, in listing order. -/
abbrev Store := List Blob

/-- The Python exceptions the app can raise. -/
inductive PyError where
  | attributeError      -- `None.group(...)` after a failed `re.match`
  | timeoutError        -- `operation.result(timeout=420)` timed out
  | jsonDecodeError     -- `json.loads` on bytes that are not valid JSON
  | unboundLocal        -- `annotation` referenced before assignment
  | deleteError         -- `blob.delete()` failed
  | fileNotFound        -- `open("transcription.txt", "r")` with no file
deriving DecidableEq

/-- Test whether `pfx` is a prefix of `s` (structural, character by character). -/
def strHasPfx (pfx s : String) : Bool :=
  pfx.data.isPrefixOf s.data

/-- Model of `bucket.list_blobs(prefix=pfx)`: the blobs of bucket `bkt` whose
name starts with `pfx`, in the order the store returns them. -/
def listBlobs (store : Store) (bkt pfx : String) : List Blob :=
  store.filter (fun x => decide (x.bucket = bkt) && strHasPfx pfx x.name)

/-! ### The `gs://` URI regex

Both `write_to_text` and `delete_temporary_files` begin with
`re.match(r'gs://([^/]+)/(.+)', uri)`.  Python semantics: the match is
anchored at the start only; `[^/]+` greedily takes the (nonempty) run of
characters up to the first `/` after `gs://`; `.` matches any character
except a newline, so group 2 is the nonempty run of non-newline characters
after that `/`.  If the match fails, `match.group(1)` raises
`AttributeError` on `None`. -/

/-- Split a character list at its first `/`: returns the (possibly empty)
run before it and the remainder after it, or `none` if there is no `/`. -/
def splitAtSlash : List Char → Option (List Char × List Char)
  | [] => none
  | c :: rest =>
    if c = '/' then some ([], rest)
    else (splitAtSlash rest).map (fun p => (c :: p.1, p.2))

/-- Model of `re.match(r'gs://([^/]+)/(.+)', ·)` on a character list: the two
capture groups on success, `none` on failure. -/
def gcsMatchL (cs : List Char) : Option (List Char × List Char) :=
  match cs with
  | 'g' :: 's' :: ':' :: '/' :: '/' :: rest =>
    match splitAtSlash rest with
    | some (bkt, after) =>
      if bkt = [] then none
      else
        match after.takeWhile (fun c => decide (c ≠ '\n')) with
        | [] => none
        | path => some (bkt, path)
    | none => none
  | _ => none

/-- Model of `re.match(r'gs://([^/]+)/(.+)', s)`: `some (group 1, group 2)`
on a successful match, `none` when the match fails. -/
def gcsMatch (s : String) : Option (String × String) :=
  (gcsMatchL s.data).map (fun p => (String.mk p.1, String.mk p.2))

/-! ### Module-level constants of the source file -/

def bucket_name : String := "ocr-rkmm-docs"
def input_folder_name : String := "input"
def output_folder_name : String := "output"
def gcs_source_uri : String := "gs://ocr-rkmm-docs/input/"
def gcs_destination_uri : String := "gs://ocr-rkmm-docs/output/"

/-! ### `write_to_text`

The inner loops of `write_to_text`, faithfully including the handling of
`annotation`: the variable is assigned only inside the `try`, so after a
caught `KeyError` the subsequent `annotation['text']` reads the value left
over from the previous page (of any earlier shard: `annotation` is a
function-scoped local), and on the very first page it raises
`UnboundLocalError`.  `json.loads` is not guarded, so a shard that fails to
parse raises out of the whole function. -/

/-- Outcome of running page/shard loops: the text appended to
`transcription.txt` so far, plus either the current value of the
`annotation` local or the exception that aborted the loop. -/
inductive RunResult where
  | ok (written : String) (ann : Option String)
  | err (written : String) (e : PyError)
deriving DecidableEq

/-- The loop over `response['responses']`: `ann` is the current value of the
`annotation` local (`none` = not yet assigned). -/
def runPages (ann : Option String) : List PageResponse → RunResult
  | [] => .ok "" ann
  | p :: rest =>
    let ann' := match p with
      | .withText t => some t
      | .noText => ann
    match ann' with
    | none => .err "" .unboundLocal
    | some t =>
      match runPages (some t) rest with
      | .ok w a => .ok (t ++ w) a
      | .err w e => .err (t ++ w) e

/-- The loop over the fetched shards: each shard is downloaded and
`json.loads`-parsed (raising on `notJson`), then its pages are processed. -/
def runShards (ann : Option String) : List BlobContent → RunResult
  | [] => .ok "" ann
  | .notJson _ :: _ => .err "" .jsonDecodeError
  | .json pages :: rest =>
    match runPages ann pages with
    | .err w e => .err w e
    | .ok w a =>
      match runShards a rest with
      | .ok w2 a2 => .ok (w ++ w2) a2
      | .err w2 e => .err (w ++ w2) e

/-- Outcome of `write_to_text`: the final contents of `transcription.txt`,
or an exception raised after the file was opened with mode `"w"` (so the
file holds the part written before the raise), or an exception raised before
the file was touched. -/
inductive WResult where
  | ok (content : String)
  | errAfterOpen (written : String) (e : PyError)
  | errBeforeOpen (e : PyError)
deriving DecidableEq

/-- Model of `write_to_text(gcs_destination_uri)`: parse the URI, list the
blobs under the prefix in the bucket, truncate `transcription.txt`, then
append each page's text shard by shard in listing order. -/
def write_to_text (uri : String) (store : Store) : WResult :=
  match gcsMatch uri with
  | none => .errBeforeOpen .attributeError
  | some (bkt, pfx) =>
    match runShards none ((listBlobs store bkt pfx).map Blob.content) with
    | .ok w _ => .ok w
    | .err w e => .errAfterOpen w e

/-! ### `delete_temporary_files` -/

/-- Remove from the store every blob with the given blob's bucket and name
(the effect of `blob.delete()`). -/
def eraseBlob (b : Blob) (store : Store) : Store :=
  store.filter (fun x => !(decide (x.bucket = b.bucket) && decide (x.name = b.name)))

/-- The `for blob in blobs: blob.delete()` loop.  `failing k = true` means
deleting the object named `k` raises; the loop has no exception handling, so
the first failure aborts it, leaving later blobs undeleted. -/
def deleteLoop (failing : String → Bool) : List Blob → Store → Store × Option PyError
  | [], st => (st, none)
  | b :: rest, st =>
    if failing b.name then (st, some .deleteError)
    else deleteLoop failing rest (eraseBlob b st)

/-- Model of `delete_temporary_files(gcs_destination_uri)`: parse the URI,
list the blobs under the prefix, delete each in turn.  Returns the resulting
store and the exception, if one was raised. -/
def delete_temporary_files (failing : String → Bool) (uri : String)
    (store : Store) : Store × Option PyError :=
  match gcsMatch uri with
  | none => (store, some .attributeError)
  | some (bkt, pfx) => deleteLoop failing (listBlobs store bkt pfx) store

/-! ### `main` -/

/-- The three `st.session_state` flags. -/
structure SessionState where
  upload_completed : Bool
  ocr_completed : Bool
  display_completed : Bool
deriving DecidableEq

/-- The state `main` touches: the object store, the session flags, and the
local file `transcription.txt` (`none` = file absent). -/
structure World where
  store : Store
  session : SessionState
  transcript : Option String
deriving DecidableEq

/-- Which button returned `True` in this run of the script (at most one per
Streamlit rerun). -/
inductive UiEvent where
  | clickUpload
  | clickOcr
  | clickDisplay
  | noClick
deriving DecidableEq

/-- Result of `operation.result(timeout=420)`: the remote batch either
finished in time or the wait raised a timeout error. -/
inductive AwaitOutcome where
  | done
  | timedOut
deriving DecidableEq

/-- Observable store side effects issued by `main` itself. -/
inductive Effect where
  | putBlob (bucket name : String)
  | ocrSubmit (src dst : String)
deriving DecidableEq

/-- Outcome of one run of `main`: either the script finished, or an uncaught
exception surfaced; either way the world at that moment. -/
inductive RunOutcome where
  | normal (w : World)
  | raised (w : World) (e : PyError)
deriving DecidableEq

/-- The world carried by a run outcome. -/
def worldOf : RunOutcome → World
  | .normal w => w
  | .raised w _ => w

/-- One run of `main` with an uploaded file of name `fn` and bytes `fc`
present in the uploader.  `outcome` is what the backend wait would return;
`newShards` are the output objects the backend has written to the store by
the time the wait returns `done` (modelled as appended to the store);
`failing` says which object deletions raise. -/
def runMain (fn fc : String) (outcome : AwaitOutcome) (newShards : List Blob)
    (failing : String → Bool) (ev : UiEvent) (w : World) :
    RunOutcome × List Effect :=
  match ev with
  | .clickUpload =>
    -- `if st.button("Upload") and not st.session_state.upload_completed:`
    if w.session.upload_completed then (.normal w, [])
    else
      (.normal
        { store := w.store ++
            [{ bucket := bucket_name,
               name := input_folder_name ++ "/" ++ fn,
               content := .notJson fc }],
          session := { w.session with upload_completed := true },
          transcript := w.transcript },
       [.putBlob bucket_name (input_folder_name ++ "/" ++ fn)])
  | .clickOcr =>
    -- the OCR button exists only under `if st.session_state.upload_completed:`
    if w.session.upload_completed && !w.session.ocr_completed then
      let src := "gs://" ++ bucket_name ++ "/" ++ input_folder_name ++ "/" ++ fn
      let dst := "gs://" ++ bucket_name ++ "/" ++ output_folder_name ++ "/"
      match outcome with
      | .timedOut => (.raised w .timeoutError, [.ocrSubmit src dst])
      | .done =>
        let store1 := w.store ++ newShards
        match write_to_text dst store1 with
        | .errBeforeOpen e =>
          (.raised { w with store := store1 } e, [.ocrSubmit src dst])
        | .errAfterOpen t e =>
          (.raised { store := store1, session := w.session,
                     transcript := some t } e,
           [.ocrSubmit src dst])
        | .ok t =>
          match delete_temporary_files failing dst store1 with
          | (store2, some e) =>
            (.raised { store := store2, session := w.session,
                       transcript := some t } e,
             [.ocrSubmit src dst])
          | (store2, none) =>
            (.normal { store := store2,
                       session := { w.session with ocr_completed := true },
                       transcript := some t },
             [.ocrSubmit src dst])
    else (.normal w, [])
  | .clickDisplay =>
    if w.session.ocr_completed && !w.session.display_completed then
      match w.transcript with
      | none => (.raised w .fileNotFound, [])
      | some _ =>
        (.normal { store := w.store,
                   session := { upload_completed := false,
                                ocr_completed := false,
                                display_completed := false },
                   transcript := w.transcript },
         [])
    else (.normal w, [])
  | .noClick => (.normal w, [])

/-! ### Derived notions used in the statements -/

/-- Concatenation of a list of text segments, with no separator. -/
def concatTexts : List String → String
  | [] => ""
  | t :: r => t ++ concatTexts r

/-- Every page entry of the list carries a text field. -/
def goodPages (pages : List PageResponse) : Bool :=
  pages.all fun p =>
    match p with
    | .withText _ => true
    | .noText => false

/-- The blob parses as a shard and every one of its pages carries text. -/
def goodContent : BlobContent → Bool
  | .json pages => goodPages pages
  | .notJson _ => false

/-- The text a page contributes. -/
def pageText : PageResponse → String
  | .withText t => t
  | .noText => ""

/-- The concatenation of a shard's page texts, in page order. -/
def contentText : BlobContent → String
  | .json pages => concatTexts (pages.map pageText)
  | .notJson _ => ""

/-- The store change of a deletion loop in which nothing fails: delete each
listed blob in turn. -/
def eraseAll : List Blob → Store → Store
  | [], st => st
  | b :: r, st => eraseAll r (eraseBlob b st)

/-- The blob lies in the app's bucket under the destination folder. -/
def isDest (b : Blob) : Bool :=
  decide (b.bucket = "ocr-rkmm-docs") && strHasPfx "output/" b.name

/-! ### Helper lemmas -/

theorem strAppend_assoc (a b c : String) : a ++ b ++ c = a ++ (b ++ c) :=
  String.ext (by simp [String.data_append, List.append_assoc])

theorem gcsMatch_dest_eq :
    gcsMatch gcs_destination_uri = some ("ocr-rkmm-docs", "output/") := by
  decide

theorem dst_expr_eq :
    "gs://" ++ bucket_name ++ "/" ++ output_folder_name ++ "/" = gcs_destination_uri := by
  decide

theorem runShards_append_ok (xs ys : List BlobContent) (ann a : Option String)
    (w : String) (h : runShards ann xs = .ok w a) :
    runShards ann (xs ++ ys) =
      match runShards a ys with
      | .ok w2 a2 => .ok (w ++ w2) a2
      | .err w2 e => .err (w ++ w2) e := by
  induction xs generalizing ann a w with
  | nil =>
    simp only [runShards] at h
    injection h with h1 h2
    subst h1; subst h2
    simp only [List.nil_append]
    cases hy : runShards ann ys with
    | ok w2 a2 => simp [String.empty_append]
    | err w2 e => simp [String.empty_append]
  | cons x xs ih =>
    cases x with
    | notJson bytes => simp [runShards] at h
    | json pages =>
      simp only [runShards, List.cons_append] at h ⊢
      cases hp : runPages ann pages with
      | err w1 e1 => rw [hp] at h; simp at h
      | ok w1 a1 =>
        rw [hp] at h
        simp only [] at h ⊢
        cases hs : runShards a1 xs with
        | err w2 e2 => rw [hs] at h; simp at h
        | ok w2 a2 =>
          rw [hs] at h
          simp only [RunResult.ok.injEq] at h
          obtain ⟨h1, h2⟩ := h
          subst h1; subst h2
          simp only [List.append_eq]
          rw [ih a1 a2 w2 hs]
          cases hy : runShards a2 ys with
          | ok w3 a3 => simp [hy, strAppend_assoc]
          | err w3 e3 => simp [hy, strAppend_assoc]

theorem runPages_good (pages : List PageResponse) :
    ∀ ann : Option String, goodPages pages = true →
      ∃ a2, runPages ann pages = .ok (concatTexts (pages.map pageText)) a2 := by
  induction pages with
  | nil => exact fun ann _ => ⟨ann, rfl⟩
  | cons p rest ih =>
    intro ann h
    cases p with
    | noText => simp [goodPages] at h
    | withText t =>
      have h' : goodPages rest = true := by
        simpa [goodPages] using h
      obtain ⟨a2, ha⟩ := ih (some t) h'
      refine ⟨a2, ?_⟩
      simp [runPages, ha, concatTexts, pageText]

theorem runShards_good (shards : List BlobContent) :
    ∀ ann : Option String, shards.all goodContent = true →
      ∃ a2, runShards ann shards = .ok (concatTexts (shards.map contentText)) a2 := by
  induction shards with
  | nil => exact fun ann _ => ⟨ann, rfl⟩
  | cons s rest ih =>
    intro ann h
    rw [List.all_cons, Bool.and_eq_true] at h
    obtain ⟨hs, hrest⟩ := h
    cases s with
    | notJson bytes => simp [goodContent] at hs
    | json pages =>
      obtain ⟨a1, hp⟩ := runPages_good pages ann (by simpa [goodContent] using hs)
      obtain ⟨a2, hsh⟩ := ih a1 hrest
      refine ⟨a2, ?_⟩
      simp [runShards, hp, hsh, contentText, concatTexts]


/-- C1: the claim says a page lacking `fullTextAnnotation` contributes an
empty text segment and merging continues.  The code instead reuses the stale
`annotation` local: with a single page lacking the field it raises
`UnboundLocalError`, and with a preceding annotated page it writes that
page's text a second time. -/
theorem noText_page_stale_or_unbound :
    write_to_text gcs_destination_uri
        [Blob.mk "ocr-rkmm-docs" "output/o1.json" (.json [.noText])]
      = .errAfterOpen "" .unboundLocal ∧
    write_to_text gcs_destination_uri
        [Blob.mk "ocr-rkmm-docs" "output/o1.json"
          (.json [.withText "A", .noText])]
      = .ok "AA" := by
  decide

/-- C2 counterexample: with three shards of which the second is corrupt, the
merge does not produce the concatenation of shards 1 and 3; it aborts with a
JSON decode error after writing only shard 1's text. -/
theorem malformed_shard_aborts_cex :
    write_to_text gcs_destination_uri
        [Blob.mk "ocr-rkmm-docs" "output/s1" (.json [.withText "A"]),
         Blob.mk "ocr-rkmm-docs" "output/s2" (.notJson "corrupt"),
         Blob.mk "ocr-rkmm-docs" "output/s3" (.json [.withText "C"])]
      = .errAfterOpen "A" .jsonDecodeError ∧
    WResult.errAfterOpen "A" PyError.jsonDecodeError ≠ WResult.ok "AC" := by
  decide

/-- C2 amended: a shard whose bytes are not valid JSON aborts the whole
merge with a JSON decode error; the transcript file retains exactly the text
of the shards listed before the malformed one, and later shards contribute
nothing. -/
theorem malformed_shard_aborts (store : Store) (pre post : List Blob)
    (bad : Blob) (bytes w : String) (a : Option String)
    (hl : listBlobs store "ocr-rkmm-docs" "output/" = pre ++ bad :: post)
    (hbad : bad.content = .notJson bytes)
    (hpre : runShards none (pre.map Blob.content) = .ok w a) :
    write_to_text gcs_destination_uri store = .errAfterOpen w .jsonDecodeError := by
  have hstep := runShards_append_ok (pre.map Blob.content)
    (bad.content :: post.map Blob.content) none a w hpre
  rw [hbad] at hstep
  simp only [runShards] at hstep
  simp [write_to_text, gcsMatch_dest_eq, hl, List.map_append, List.map_cons,
    hbad, hstep, String.append_empty]

theorem malformed_shard_aborts_witness :
    write_to_text gcs_destination_uri
        [Blob.mk "ocr-rkmm-docs" "output/s1" (.json [.withText "X"]),
         Blob.mk "ocr-rkmm-docs" "output/s2" (.notJson "oops"),
         Blob.mk "ocr-rkmm-docs" "output/s3" (.json [.withText "Z"])]
      = .errAfterOpen "X" .jsonDecodeError :=
  malformed_shard_aborts _
    [Blob.mk "ocr-rkmm-docs" "output/s1" (.json [.withText "X"])]
    [Blob.mk "ocr-rkmm-docs" "output/s3" (.json [.withText "Z"])]
    (Blob.mk "ocr-rkmm-docs" "output/s2" (.notJson "oops")) "oops" "X" (some "X")
    (by decide) rfl (by decide)

/-- C3 counterexample: two stores that are permutations of each other (the
listing returns the same shard set in two orders) yield different
transcripts, because the merge uses the listing order as-is and never sorts
by key. -/
theorem listing_order_dependent_cex :
    List.Perm
      [Blob.mk "ocr-rkmm-docs" "output/a" (.json [.withText "A"]),
       Blob.mk "ocr-rkmm-docs" "output/b" (.json [.withText "B"])]
      [Blob.mk "ocr-rkmm-docs" "output/b" (.json [.withText "B"]),
       Blob.mk "ocr-rkmm-docs" "output/a" (.json [.withText "A"])] ∧
    write_to_text gcs_destination_uri
        [Blob.mk "ocr-rkmm-docs" "output/a" (.json [.withText "A"]),
         Blob.mk "ocr-rkmm-docs" "output/b" (.json [.withText "B"])]
      ≠ write_to_text gcs_destination_uri
        [Blob.mk "ocr-rkmm-docs" "output/b" (.json [.withText "B"]),
         Blob.mk "ocr-rkmm-docs" "output/a" (.json [.withText "A"])] :=
  ⟨List.Perm.swap _ _ _, by decide⟩

/-- C3 amended: the merge processes the shards exactly in the order the
store listing returns them (no sort is applied): whenever every listed shard
parses and every page carries text, the transcript is the concatenation of
the shard texts in listing order. -/
theorem transcript_follows_listing_order (store : Store)
    (h : ((listBlobs store "ocr-rkmm-docs" "output/").map Blob.content).all
        goodContent = true) :
    write_to_text gcs_destination_uri store =
      .ok (concatTexts
        (((listBlobs store "ocr-rkmm-docs" "output/").map Blob.content).map
          contentText)) := by
  obtain ⟨a2, hr⟩ := runShards_good _ none h
  simp [write_to_text, gcsMatch_dest_eq, hr]

theorem transcript_follows_listing_order_witness :
    write_to_text gcs_destination_uri
        [Blob.mk "ocr-rkmm-docs" "output/s1" (.json [.withText "P", .withText "Q"]),
         Blob.mk "ocr-rkmm-docs" "output/s2" (.json [.withText "R"])]
      = .ok "PQR" := by
  have h := transcript_follows_listing_order
    [Blob.mk "ocr-rkmm-docs" "output/s1" (.json [.withText "P", .withText "Q"]),
     Blob.mk "ocr-rkmm-docs" "output/s2" (.json [.withText "R"])] (by decide)
  simpa using h

/-- C4: when the backend wait times out, the exception surfaces out of the
OCR click, and the world — store (hence the destination directory), session
flags and transcript file — is exactly what it was: no merge, no cleanup. -/
theorem timeout_leaves_world_unchanged (fn fc : String) (sh : List Blob)
    (fl : String → Bool) (w : World)
    (hu : w.session.upload_completed = true)
    (ho : w.session.ocr_completed = false) :
    (runMain fn fc .timedOut sh fl .clickOcr w).1 = .raised w .timeoutError := by
  simp [runMain, hu, ho]

theorem timeout_leaves_world_unchanged_witness :
    (runMain "doc.pdf" "bytes" .timedOut [] (fun _ => false) .clickOcr
        ⟨[], ⟨true, false, false⟩, none⟩).1
      = .raised ⟨[], ⟨true, false, false⟩, none⟩ .timeoutError :=
  timeout_leaves_world_unchanged "doc.pdf" "bytes" [] (fun _ => false) _ rfl rfl

/-! ### Cleanup lemmas -/

theorem deleteLoop_noFail (blobs : List Blob) (st : Store) :
    deleteLoop (fun _ => false) blobs st =
      (st.filter (fun x =>
        !(blobs.any (fun b =>
          decide (x.bucket = b.bucket) && decide (x.name = b.name)))), none) := by
  induction blobs generalizing st with
  | nil => simp [deleteLoop]
  | cons b rest ih =>
    simp only [deleteLoop, if_false]
    rw [ih]
    simp only [eraseBlob, List.filter_filter]
    refine congrArg (fun l => (l, (none : Option PyError))) ?_
    apply List.filter_congr
    intro x _
    cases h1 : decide (x.bucket = b.bucket) && decide (x.name = b.name) <;>
      simp [List.any_cons, h1]

/-- The store produced by a cleanup run in which nothing fails: the original
store stripped of every blob of the app's bucket under the destination
folder. -/
theorem cleanup_noFail_store (store : Store) :
    delete_temporary_files (fun _ => false) gcs_destination_uri store =
      (store.filter (fun x =>
        !(decide (x.bucket = "ocr-rkmm-docs") && strHasPfx "output/" x.name)),
       none) := by
  simp only [delete_temporary_files, gcsMatch_dest_eq]
  rw [deleteLoop_noFail]
  refine congrArg (fun l => (l, (none : Option PyError))) ?_
  apply List.filter_congr
  intro x hx
  have hiff : (listBlobs store "ocr-rkmm-docs" "output/").any
      (fun b => decide (x.bucket = b.bucket) && decide (x.name = b.name)) =
      (decide (x.bucket = "ocr-rkmm-docs") && strHasPfx "output/" x.name) := by
    cases hd : decide (x.bucket = "ocr-rkmm-docs") && strHasPfx "output/" x.name with
    | true =>
      rw [List.any_eq_true]
      exact ⟨x, by simp [listBlobs, List.mem_filter, hx, hd], by simp⟩
    | false =>
      rw [List.any_eq_false]
      intro l hl
      rw [listBlobs, List.mem_filter] at hl
      obtain ⟨hls, hld⟩ := hl
      cases hbk : decide (x.bucket = l.bucket) with
      | false => simp [hbk]
      | true =>
        cases hnm : decide (x.name = l.name) with
        | false => simp [hbk, hnm]
        | true =>
          exfalso
          rw [decide_eq_true_eq] at hbk hnm
          rw [hbk, hnm] at hd
          rw [hld] at hd
          exact absurd hd (by simp)
  rw [hiff]

/-- C5: cleanup with no deletion failures raises nothing and removes every
object of the app's bucket under the destination folder: re-listing the
destination afterwards returns the empty list, for any starting store. -/
theorem cleanup_empties_destination (store : Store) :
    (delete_temporary_files (fun _ => false) gcs_destination_uri store).2 = none ∧
    listBlobs (delete_temporary_files (fun _ => false) gcs_destination_uri store).1
      "ocr-rkmm-docs" "output/" = [] := by
  rw [cleanup_noFail_store]
  refine ⟨rfl, ?_⟩
  simp only [listBlobs, List.filter_filter]
  have h : ∀ x : Blob,
      ((decide (x.bucket = "ocr-rkmm-docs") && strHasPfx "output/" x.name) &&
        !(decide (x.bucket = "ocr-rkmm-docs") && strHasPfx "output/" x.name)) = false := by
    intro x
    cases decide (x.bucket = "ocr-rkmm-docs") && strHasPfx "output/" x.name <;> simp
  simp [h]

theorem cleanup_empties_destination_witness :
    (delete_temporary_files (fun _ => false) gcs_destination_uri
        [Blob.mk "ocr-rkmm-docs" "output/s1" (.json []),
         Blob.mk "ocr-rkmm-docs" "output/s2" (.json []),
         Blob.mk "ocr-rkmm-docs" "output/s3" (.json []),
         Blob.mk "ocr-rkmm-docs" "output/s4" (.json []),
         Blob.mk "ocr-rkmm-docs" "output/s5" (.json [])]).2 = none ∧
    listBlobs (delete_temporary_files (fun _ => false) gcs_destination_uri
        [Blob.mk "ocr-rkmm-docs" "output/s1" (.json []),
         Blob.mk "ocr-rkmm-docs" "output/s2" (.json []),
         Blob.mk "ocr-rkmm-docs" "output/s3" (.json []),
         Blob.mk "ocr-rkmm-docs" "output/s4" (.json []),
         Blob.mk "ocr-rkmm-docs" "output/s5" (.json [])]).1
      "ocr-rkmm-docs" "output/" = [] :=
  cleanup_empties_destination _

/-- C10: cleanup is idempotent — a second run on the store a first run left
behind lists nothing, deletes nothing, raises nothing, and returns that
store unchanged. -/
theorem cleanup_idempotent (store : Store) :
    delete_temporary_files (fun _ => false) gcs_destination_uri
        ((delete_temporary_files (fun _ => false) gcs_destination_uri store).1)
      = ((delete_temporary_files (fun _ => false) gcs_destination_uri store).1,
         none) := by
  simp only [cleanup_noFail_store]
  simp only [List.filter_filter]
  have h : ∀ x : Blob,
      (!(decide (x.bucket = "ocr-rkmm-docs") && strHasPfx "output/" x.name) &&
        !(decide (x.bucket = "ocr-rkmm-docs") && strHasPfx "output/" x.name)) =
      !(decide (x.bucket = "ocr-rkmm-docs") && strHasPfx "output/" x.name) := by
    intro x
    cases decide (x.bucket = "ocr-rkmm-docs") && strHasPfx "output/" x.name <;> simp
  simp [h]

theorem cleanup_idempotent_witness :
    delete_temporary_files (fun _ => false) gcs_destination_uri
        ((delete_temporary_files (fun _ => false) gcs_destination_uri
          [Blob.mk "ocr-rkmm-docs" "output/s1" (.json []),
           Blob.mk "ocr-rkmm-docs" "input/doc.pdf" (.notJson "pdf")]).1)
      = ((delete_temporary_files (fun _ => false) gcs_destination_uri
          [Blob.mk "ocr-rkmm-docs" "output/s1" (.json []),
           Blob.mk "ocr-rkmm-docs" "input/doc.pdf" (.notJson "pdf")]).1,
         none) :=
  cleanup_idempotent _

theorem deleteLoop_skip_noFail (fl : String → Bool) (pre rest : List Blob)
    (st : Store) (hpre : ∀ l ∈ pre, fl l.name = false) :
    deleteLoop fl (pre ++ rest) st = deleteLoop fl rest (eraseAll pre st) := by
  induction pre generalizing st with
  | nil => simp [eraseAll]
  | cons b pre ih =>
    have hb : fl b.name = false := hpre b (by simp)
    simp only [List.cons_append, deleteLoop, hb, if_false, eraseAll]
    exact ih _ (fun l hl => hpre l (by simp [hl]))

/-- C6 counterexample: two objects under the destination, deleting the first
fails — `delete_temporary_files` raises at once instead of recovering: the
second object is never deleted and the store is returned unchanged, so the
OCR click fails despite the transcript being assembled. -/
theorem delete_failure_not_recovered_cex :
    delete_temporary_files (fun k => k == "output/s1") gcs_destination_uri
        [Blob.mk "ocr-rkmm-docs" "output/s1" (.json []),
         Blob.mk "ocr-rkmm-docs" "output/s2" (.json [])]
      = ([Blob.mk "ocr-rkmm-docs" "output/s1" (.json []),
          Blob.mk "ocr-rkmm-docs" "output/s2" (.json [])],
         some .deleteError) ∧
    Blob.mk "ocr-rkmm-docs" "output/s2" (BlobContent.json []) ∈
      (delete_temporary_files (fun k => k == "output/s1") gcs_destination_uri
        [Blob.mk "ocr-rkmm-docs" "output/s1" (.json []),
         Blob.mk "ocr-rkmm-docs" "output/s2" (.json [])]).1 := by
  decide

/-- C6 amended: a per-object deletion failure is not recovered: the first
failing deletion raises out of `delete_temporary_files`, so only the objects
listed before the failing one have been deleted, the failing and later
objects remain, and the exception propagates to the caller (failing the OCR
step even though the transcript was already written). -/
theorem delete_failure_aborts_cleanup (store : Store) (pre post : List Blob)
    (bad : Blob) (fl : String → Bool)
    (hl : listBlobs store "ocr-rkmm-docs" "output/" = pre ++ bad :: post)
    (hpre : ∀ l ∈ pre, fl l.name = false) (hbad : fl bad.name = true) :
    delete_temporary_files fl gcs_destination_uri store
      = (eraseAll pre store, some .deleteError) := by
  simp only [delete_temporary_files, gcsMatch_dest_eq]
  rw [hl, deleteLoop_skip_noFail fl pre (bad :: post) store hpre]
  simp [deleteLoop, hbad]

theorem delete_failure_aborts_cleanup_witness :
    delete_temporary_files (fun k => k == "output/s2") gcs_destination_uri
        [Blob.mk "ocr-rkmm-docs" "output/s1" (.json []),
         Blob.mk "ocr-rkmm-docs" "output/s2" (.json []),
         Blob.mk "ocr-rkmm-docs" "output/s3" (.json [])]
      = (eraseAll [Blob.mk "ocr-rkmm-docs" "output/s1" (.json [])]
          [Blob.mk "ocr-rkmm-docs" "output/s1" (.json []),
           Blob.mk "ocr-rkmm-docs" "output/s2" (.json []),
           Blob.mk "ocr-rkmm-docs" "output/s3" (.json [])],
         some .deleteError) :=
  delete_failure_aborts_cleanup _
    [Blob.mk "ocr-rkmm-docs" "output/s1" (.json [])]
    [Blob.mk "ocr-rkmm-docs" "output/s3" (.json [])]
    (Blob.mk "ocr-rkmm-docs" "output/s2" (.json []))
    (fun k => k == "output/s2") (by decide) (by decide) (by decide)

/-! ### `main` lemmas -/

theorem deleteLoop_mem_preserved (fl : String → Bool) (blobs : List Blob)
    (st : Store) (b : Blob) (hb : b ∈ st)
    (hk : ∀ l ∈ blobs,
      (decide (b.bucket = l.bucket) && decide (b.name = l.name)) = false) :
    b ∈ (deleteLoop fl blobs st).1 := by
  induction blobs generalizing st with
  | nil => simpa [deleteLoop]
  | cons l rest ih =>
    simp only [deleteLoop]
    by_cases hf : fl l.name
    · simp [hf, hb]
    · simp only [hf, if_false]
      refine ih _ ?_ (fun x hx => hk x (by simp [hx]))
      rw [eraseBlob, List.mem_filter]
      exact ⟨hb, by simp [hk l (by simp)]⟩

theorem cleanup_mem_preserved (fl : String → Bool) (st : Store) (b : Blob)
    (hb : b ∈ st) (hnd : isDest b = false) :
    b ∈ (delete_temporary_files fl gcs_destination_uri st).1 := by
  simp only [delete_temporary_files, gcsMatch_dest_eq]
  refine deleteLoop_mem_preserved fl _ st b hb ?_
  intro l hl
  rw [listBlobs, List.mem_filter] at hl
  obtain ⟨_, hld⟩ := hl
  cases hbk : decide (b.bucket = l.bucket) with
  | false => simp [hbk]
  | true =>
    cases hnm : decide (b.name = l.name) with
    | false => simp [hbk, hnm]
    | true =>
      exfalso
      rw [decide_eq_true_eq] at hbk hnm
      rw [isDest, hbk, hnm, hld] at hnd
      exact absurd hnd (by simp)

/-- C7: an OCR click never touches a blob outside the destination folder of
the app's bucket: every such blob of the starting store — the uploaded
source object under `input/` in particular — is still in the store when the
click finishes or raises, whatever the backend outcome and whichever
deletions fail. -/
theorem non_destination_blobs_preserved (fn fc : String) (oc : AwaitOutcome)
    (sh : List Blob) (fl : String → Bool) (w : World) (b : Blob)
    (hb : b ∈ w.store) (hnd : isDest b = false) :
    b ∈ (worldOf (runMain fn fc oc sh fl .clickOcr w).1).store := by
  by_cases hg : (w.session.upload_completed && !w.session.ocr_completed) = true
  · cases oc with
    | timedOut => simp [runMain, hg, worldOf, hb]
    | done =>
      have hb1 : b ∈ w.store ++ sh := List.mem_append_left _ hb
      simp only [runMain, hg, if_true]
      rw [dst_expr_eq]
      cases hw : write_to_text gcs_destination_uri (w.store ++ sh) with
      | errBeforeOpen e => simp [hw, worldOf, hb1]
      | errAfterOpen t e => simp [hw, worldOf, hb1]
      | ok t =>
        simp only [hw]
        have hmem : b ∈ (delete_temporary_files fl gcs_destination_uri
            (w.store ++ sh)).1 := cleanup_mem_preserved fl _ b hb1 hnd
        cases hd : delete_temporary_files fl gcs_destination_uri (w.store ++ sh) with
        | mk store2 oe =>
          rw [hd] at hmem
          cases oe with
          | none => simpa [worldOf] using hmem
          | some e => simpa [worldOf] using hmem
  · simp [runMain, hg, worldOf, hb]

theorem non_destination_blobs_preserved_witness :
    Blob.mk "ocr-rkmm-docs" "input/doc.pdf" (.notJson "pdf") ∈
      (worldOf (runMain "doc.pdf" "pdf" .done
        [Blob.mk "ocr-rkmm-docs" "output/s1" (.json [.withText "A"])]
        (fun _ => false) .clickOcr
        ⟨[Blob.mk "ocr-rkmm-docs" "input/doc.pdf" (.notJson "pdf")],
         ⟨true, false, false⟩, none⟩).1).store :=
  non_destination_blobs_preserved "doc.pdf" "pdf" .done
    [Blob.mk "ocr-rkmm-docs" "output/s1" (.json [.withText "A"])]
    (fun _ => false)
    ⟨[Blob.mk "ocr-rkmm-docs" "input/doc.pdf" (.notJson "pdf")],
     ⟨true, false, false⟩, none⟩
    (Blob.mk "ocr-rkmm-docs" "input/doc.pdf" (.notJson "pdf"))
    (by decide) (by decide)

/-- C8: clicking Upload a second time is a no-op: after any first Upload
click the `upload_completed` flag is set, so the second click issues no
store effect at all (the put runs at most once per job) and returns the
pipeline state unchanged. -/
theorem second_upload_click_noop (fn fc : String) (oc : AwaitOutcome)
    (sh : List Blob) (fl : String → Bool) (w : World) :
    runMain fn fc oc sh fl .clickUpload
        (worldOf (runMain fn fc oc sh fl .clickUpload w).1)
      = (.normal (worldOf (runMain fn fc oc sh fl .clickUpload w).1), []) := by
  by_cases hu : w.session.upload_completed = true
  · simp [runMain, hu, worldOf]
  · simp only [Bool.not_eq_true] at hu
    simp [runMain, hu, worldOf]

theorem second_upload_click_noop_witness :
    runMain "doc.pdf" "pdf" .done [] (fun _ => false) .clickUpload
        (worldOf (runMain "doc.pdf" "pdf" .done [] (fun _ => false) .clickUpload
          ⟨[], ⟨false, false, false⟩, none⟩).1)
      = (.normal (worldOf (runMain "doc.pdf" "pdf" .done [] (fun _ => false)
          .clickUpload ⟨[], ⟨false, false, false⟩, none⟩).1), []) :=
  second_upload_click_noop "doc.pdf" "pdf" .done [] (fun _ => false)
    ⟨[], ⟨false, false, false⟩, none⟩

/-! ### URI regex characterization -/

theorem splitAtSlash_sound (l b r : List Char)
    (h : splitAtSlash l = some (b, r)) : l = b ++ '/' :: r ∧ '/' ∉ b := by
  induction l generalizing b r with
  | nil => simp [splitAtSlash] at h
  | cons c rest ih =>
    by_cases hc : c = '/'
    · subst hc
      rw [show splitAtSlash ('/' :: rest) = some ([], rest) from by
        simp [splitAtSlash]] at h
      injection h with h'
      obtain ⟨hb, hr⟩ := Prod.mk.inj h'
      subst hb; subst hr
      exact ⟨rfl, by simp⟩
    · simp only [splitAtSlash, if_neg hc] at h
      cases hs : splitAtSlash rest with
      | none => rw [hs] at h; exact Option.noConfusion h
      | some p =>
        cases p with
        | mk b' r' =>
          rw [hs] at h
          injection h with h'
          obtain ⟨hb, hr⟩ := Prod.mk.inj h'
          subst hb; subst hr
          obtain ⟨h1, h2⟩ := ih b' r' hs
          constructor
          · rw [h1]; rfl
          · intro hmem
            rcases List.mem_cons.mp hmem with h3 | h3
            · exact hc h3.symm
            · exact h2 h3

theorem splitAtSlash_complete (b r : List Char) (hb : '/' ∉ b) :
    splitAtSlash (b ++ '/' :: r) = some (b, r) := by
  induction b with
  | nil => simp [splitAtSlash]
  | cons c b ih =>
    have hc : c ≠ '/' := fun h => hb (by simp [h])
    simp only [List.cons_append, splitAtSlash, if_neg hc, List.append_eq]
    rw [ih (fun h => hb (by simp [h]))]
    rfl

theorem takeWhile_cons_of_eq {p : Char → Bool} {l tl : List Char} {hd : Char}
    (h : l.takeWhile p = hd :: tl) : ∃ l', l = hd :: l' ∧ p hd = true := by
  cases l with
  | nil => simp at h
  | cons a l' =>
    rw [List.takeWhile_cons] at h
    by_cases hp : p a = true
    · rw [if_pos hp] at h
      injection h with h1 h2
      subst h1
      exact ⟨l', rfl, hp⟩
    · rw [if_neg hp] at h; simp at h

theorem gcsMatchL_isSome_iff (cs : List Char) :
    (gcsMatchL cs).isSome = true ↔
      ∃ (bkt : List Char) (c : Char) (rest : List Char),
        cs = 'g' :: 's' :: ':' :: '/' :: '/' :: (bkt ++ '/' :: c :: rest) ∧
        bkt ≠ [] ∧ '/' ∉ bkt ∧ c ≠ '\n' := by
  constructor
  · intro h
    unfold gcsMatchL at h
    split at h
    case _ rest =>
      split at h
      case _ bkt after hsp =>
        split at h
        case isTrue => simp at h
        case isFalse hbne =>
          cases htw : after.takeWhile (fun c => decide (c ≠ '\n')) with
          | nil => rw [htw] at h; simp at h
          | cons hd tl =>
            obtain ⟨after', hafter, hhd⟩ := takeWhile_cons_of_eq htw
            obtain ⟨hrest, hbs⟩ := splitAtSlash_sound rest bkt after hsp
            refine ⟨bkt, hd, after', ?_, hbne, hbs, ?_⟩
            · rw [hrest, hafter]
            · exact of_decide_eq_true hhd
      case _ => simp at h
    case _ => simp at h
  · rintro ⟨bkt, c, rest, hcs, hbne, hbs, hcn⟩
    subst hcs
    simp only [gcsMatchL]
    rw [splitAtSlash_complete bkt (c :: rest) hbs]
    simp only [if_neg hbne]
    rw [List.takeWhile_cons, if_pos (by simpa using hcn)]
    simp

/-- The URI shapes the source's regex actually accepts: `gs://`, a nonempty
slash-free bucket, `/`, then a path whose first character is not a newline
(Python's `.` never matches a newline). -/
def acceptedShape (s : String) : Prop :=
  ∃ (bkt : List Char) (c : Char) (rest : List Char),
    s.data = 'g' :: 's' :: ':' :: '/' :: '/' :: (bkt ++ '/' :: c :: rest) ∧
    bkt ≠ [] ∧ '/' ∉ bkt ∧ c ≠ '\n'

/-- The URI shape exactly as the claim words it: `gs://<bucket>/<non-empty
path>`, with a nonempty slash-free bucket and a nonempty path. -/
def specShape (s : String) : Prop :=
  ∃ bkt path : String,
    s = "gs://" ++ bkt ++ "/" ++ path ∧ bkt ≠ "" ∧ '/' ∉ bkt.data ∧ path ≠ ""

/-- C9 counterexample: `"gs://b/\n"` has the claimed shape (bucket `b`,
non-empty path `"\n"`), yet the regex match fails, because Python's `.`
does not match a newline — so on this URI both functions raise instead of
extracting the bucket and path. -/
theorem uri_shape_newline_cex :
    specShape "gs://b/\n" ∧ gcsMatch "gs://b/\n" = none :=
  ⟨⟨"b", "\n", by decide, by decide, by decide, by decide⟩, by decide⟩

/-- C9 amended: the regex succeeds exactly on the accepted shapes (nonempty
slash-free bucket, then a path whose first character exists and is not a
newline), and whenever it fails both `write_to_text` and
`delete_temporary_files` raise `AttributeError` before touching the store:
the store is returned unchanged and nothing is listed or deleted. -/
theorem uri_match_characterization (s : String) :
    ((gcsMatch s).isSome = true ↔ acceptedShape s) ∧
    (gcsMatch s = none →
      (∀ store, write_to_text s store = .errBeforeOpen .attributeError) ∧
      (∀ fl store,
        delete_temporary_files fl s store = (store, some .attributeError))) := by
  constructor
  · have hmap : (Option.map (fun p : List Char × List Char =>
        (String.mk p.1, String.mk p.2)) (gcsMatchL s.data)).isSome
        = (gcsMatchL s.data).isSome := by
      cases gcsMatchL s.data <;> rfl
    rw [gcsMatch, hmap]
    exact gcsMatchL_isSome_iff s.data
  · intro hm
    refine ⟨fun store => ?_, fun fl store => ?_⟩
    · simp [write_to_text, hm]
    · simp [delete_temporary_files, hm]

theorem uri_match_characterization_witness :
    write_to_text "gs://x" [] = .errBeforeOpen .attributeError ∧
    delete_temporary_files (fun _ => false) "gs://x" []
      = ([], some .attributeError) :=
  ⟨((uri_match_characterization "gs://x").2 (by decide)).1 [],
   ((uri_match_characterization "gs://x").2 (by decide)).2 (fun _ => false) []⟩

end GoogleOcr

